import Mathlib

/-!
# Verification of the transaction reconciliation core of Financial-Advisor

This file gives a shallow embedding of the client-side merge pipeline of the
personal finance tracker (file `src/unnamed/part_003`, the `App` component):
the duplicate filter, the recurrence classifier and the merge orchestration
inside `addTransactions`, together with the single-record `addTransaction`
path.  Amounts are embedded as rationals (the JavaScript numbers hold cent
quantities and the code only compares differences against the constants
`0.01` and `10.00`); dates are kept as the strings the program stores.
-/

set_option maxRecDepth 40000

namespace FinAdvisor

/-- The `TransactionType` union of `types.ts`:
`'income' | 'fixed_bill' | 'flexible_bill' | 'spending'`. -/
inductive TransactionType where
  | income
  | fixed_bill
  | flexible_bill
  | spending
deriving DecidableEq, Repr

/-- The `Transaction` interface of `types.ts`. -/
structure Transaction where
  id : String
  date : String
  merchant : String
  amount : ℚ
  type : TransactionType
  category : String
deriving DecidableEq, Repr

/-- JavaScript `String.prototype.toLowerCase` restricted to the ASCII range
(character-wise lower-casing). -/
def jsToLower (s : String) : String :=
  ⟨s.data.map Char.toLower⟩

/-- JavaScript `String.prototype.trim`: drop whitespace from both ends. -/
def jsTrim (s : String) : String :=
  ⟨((s.data.dropWhile Char.isWhitespace).reverse.dropWhile Char.isWhitespace).reverse⟩

/-- Core of JavaScript `String.prototype.replace` with a string pattern and
empty replacement: remove the leftmost occurrence of `pat`, if any. -/
def removeFirst : List Char → List Char → List Char
  | [], _ => []
  | c :: cs, pat =>
    if pat.isPrefixOf (c :: cs) then (c :: cs).drop pat.length
    else c :: removeFirst cs pat

/-- JavaScript `s.replace(pat, '')`: remove the first occurrence of `pat`. -/
def jsReplace (s pat : String) : String :=
  ⟨removeFirst s.data pat.data⟩

/-- Substring scan over character lists: does `pat` occur in the list?
Embeds JavaScript `String.prototype.includes`. -/
def containsSub (pat : List Char) : List Char → Bool
  | [] => pat.isEmpty
  | c :: cs => pat.isPrefixOf (c :: cs) || containsSub pat cs

/-- JavaScript `s.includes(sub)`. -/
def includes (s sub : String) : Bool :=
  containsSub sub.data s.data

/-- JavaScript `Math.abs` on the rational embedding of JS numbers. -/
def mathAbs (q : ℚ) : ℚ :=
  if q < 0 then -q else q

/-- `date.split('T')[0]`: the part of the date string before the first `'T'`
(the whole string when no `'T'` occurs) — the calendar-day part of an ISO
timestamp, time-of-day ignored.  Source: part_003 line 40. -/
def dayOf (d : String) : String :=
  ⟨d.data.takeWhile (fun c => c ≠ 'T')⟩

/-- `merchant.toLowerCase().trim()` — merchant normalization used by the
duplicate filter (part_003 line 42). -/
def normMerchant (s : String) : String :=
  jsTrim (jsToLower s)

/-- Models `new Date(d).getMonth()` on the ISO `YYYY-MM-DD…` date strings the
application stores: the zero-based month index, read from the two month digits
at positions 5 and 6 of the string; every other part — the year included — is
ignored.  Source: part_003 line 67. -/
def getMonth (d : String) : Nat :=
  10 * ((d.data.getD 5 '0').toNat - 48) + ((d.data.getD 6 '0').toNat - 48) - 1

/-- The duplicate test of `addTransactions` (part_003 lines 39–43):
`prev.some(existingTx => same day && amount within a cent && same normalized
merchant)`. -/
def isDuplicate (prev : List Transaction) (newTx : Transaction) : Bool :=
  prev.any fun existingTx =>
    dayOf existingTx.date == dayOf newTx.date
      && decide (mathAbs (existingTx.amount - newTx.amount) < 0.01)
      && normMerchant existingTx.merchant == normMerchant newTx.merchant

/-- Stage 1 of `addTransactions` (part_003 lines 38–45): keep the incoming
transactions that are not duplicates of the existing history. -/
def dedupe (prev incoming : List Transaction) : List Transaction :=
  incoming.filter fun newTx => ! isDuplicate prev newTx

/-- The `cleanName` helper of `addTransactions` (part_003 lines 52–57):
`name.toLowerCase().replace('zelle to ', '').replace('zelle transfer to ', '')
.replace('transfer to ', '').trim()`. -/
def cleanName (name : String) : String :=
  jsTrim (jsReplace (jsReplace (jsReplace (jsToLower name) "zelle to ")
    "zelle transfer to ") "transfer to ")

/-- The `isRecurring` search of `addTransactions` (part_003 lines 61–70). -/
def isRecurring (prev : List Transaction) (tx : Transaction) : Bool :=
  prev.any fun existingTx =>
    if existingTx.type = TransactionType.income then false
    else
      let prevName := cleanName existingTx.merchant
      let currentName := cleanName tx.merchant
      let nameMatch := prevName == currentName
        || includes prevName currentName || includes currentName prevName
      let amountMatch := decide (mathAbs (existingTx.amount - tx.amount) < 10.00)
      let differentMonth := getMonth existingTx.date != getMonth tx.date
      nameMatch && amountMatch && differentMonth

/-- The per-record body of the `processedNew` map of `addTransactions`
(part_003 lines 48–80): income passes through, a recurring match upgrades the
type to `fixed_bill`, and otherwise the record is returned as provided (the
source keeps a redundant branch for a type already `fixed_bill`). -/
def classifyTx (prev : List Transaction) (tx : Transaction) : Transaction :=
  if tx.type = TransactionType.income then tx
  else if isRecurring prev tx then { tx with type := TransactionType.fixed_bill }
  else if tx.type = TransactionType.fixed_bill then tx
  else tx

/-- Stage 2 of `addTransactions` (part_003 lines 48–80): classify each
deduplicated record against the existing history. -/
def classifyRecurring (prev incoming : List Transaction) : List Transaction :=
  incoming.map fun tx => classifyTx prev tx

/-- The batch merge `addTransactions` (part_003 lines 35–84): dedupe, then
classify, then prepend to the history (`[...processedNew, ...prev]`). -/
def addTransactions (prev newTxs : List Transaction) : List Transaction :=
  classifyRecurring prev (dedupe prev newTxs) ++ prev

/-- The single-record add `addTransaction` (part_003 lines 31–33):
`setTransactions(prev => [transaction, ...prev])`. -/
def addTransaction (t : Transaction) (prev : List Transaction) : List Transaction :=
  t :: prev

/-- Rendering of a `(year, month, day)` triple as an ISO `YYYY-MM-DD` date
string (year printed to four digits, month and day to two). -/
def isoDate (y m d : Nat) : String :=
  ⟨[Nat.digitChar (y / 1000 % 10), Nat.digitChar (y / 100 % 10),
    Nat.digitChar (y / 10 % 10), Nat.digitChar (y % 10), '-',
    Nat.digitChar (m / 10 % 10), Nat.digitChar (m % 10), '-',
    Nat.digitChar (d / 10 % 10), Nat.digitChar (d % 10)]⟩

/-- The merchant normalization exactly as the specification words it: lower-
case, then strip at most one of the literal prefixes `"zelle to "`,
`"zelle transfer to "`, `"transfer to "` — checked in that order, only as a
leading prefix — then trim whitespace.  Stated for comparison with the
source's `cleanName`. -/
def specNormalize (name : String) : String :=
  let lower := jsToLower name
  let stripped :=
    if ("zelle to ").data.isPrefixOf lower.data then
      ⟨lower.data.drop ("zelle to ").length⟩
    else if ("zelle transfer to ").data.isPrefixOf lower.data then
      ⟨lower.data.drop ("zelle transfer to ").length⟩
    else if ("transfer to ").data.isPrefixOf lower.data then
      ⟨lower.data.drop ("transfer to ").length⟩
    else lower
  jsTrim stripped

/-! ## Helper lemmas -/

/-- The claim-side recurrence-evidence predicate: some existing non-income
transaction matches the incoming one on normalized merchant name (equality or
bidirectional substring containment), amount within ten dollars, and a
different month index. -/
def recurrenceEvidence (prev : List Transaction) (tx : Transaction) : Prop :=
  ∃ e ∈ prev, e.type ≠ TransactionType.income
    ∧ (cleanName e.merchant = cleanName tx.merchant
        ∨ (cleanName tx.merchant).data <:+: (cleanName e.merchant).data
        ∨ (cleanName e.merchant).data <:+: (cleanName tx.merchant).data)
    ∧ |e.amount - tx.amount| < 10.00
    ∧ getMonth e.date ≠ getMonth tx.date

instance recurrenceEvidenceDec (prev : List Transaction) (tx : Transaction) :
    Decidable (recurrenceEvidence prev tx) :=
  List.decidableBEx _ prev

theorem mathAbs_eq_abs (q : ℚ) : mathAbs q = |q| := by
  unfold mathAbs
  split
  · next h => exact (abs_of_neg h).symm
  · next h => exact (abs_of_nonneg (le_of_not_lt h)).symm

theorem containsSub_iff (pat s : List Char) : containsSub pat s = true ↔ pat <:+: s := by
  induction s with
  | nil => simp [containsSub, List.isEmpty_iff]
  | cons c cs ih => simp [containsSub, ih, List.infix_cons_iff]

theorem includes_iff (s sub : String) : includes s sub = true ↔ sub.data <:+: s.data :=
  containsSub_iff sub.data s.data

theorem removeFirst_of_no_occurrence (s pat : List Char) (h : ¬ pat <:+: s) :
    removeFirst s pat = s := by
  induction s with
  | nil => rfl
  | cons c cs ih =>
    have h1 : ¬ pat.isPrefixOf (c :: cs) = true := fun hp =>
      h (List.isPrefixOf_iff_prefix.mp hp).isInfix
    rw [removeFirst, if_neg h1, ih fun hinf => h (List.infix_cons hinf)]

theorem removeFirst_append (a pat b : List Char)
    (h : ∀ i, i < a.length → ¬ pat <+: ((a ++ (pat ++ b)).drop i)) :
    removeFirst (a ++ (pat ++ b)) pat = a ++ b := by
  induction a with
  | nil =>
    simp only [List.nil_append]
    cases pat with
    | nil =>
      cases b with
      | nil => rfl
      | cons x xs => simp [removeFirst]
    | cons p ps =>
      rw [List.cons_append, removeFirst,
        if_pos (List.isPrefixOf_iff_prefix.mpr (by rw [← List.cons_append]; exact List.prefix_append _ _)),
        ← List.cons_append, List.drop_left]
  | cons x xs ih =>
    have h0 : ¬ (List.isPrefixOf pat (x :: (xs ++ (pat ++ b)))) = true := fun hp => by
      have := h 0 (by simp)
      rw [List.drop_zero] at this
      exact this (List.isPrefixOf_iff_prefix.mp hp)
    rw [List.cons_append, removeFirst, if_neg h0,
      ih fun i hi => by simpa using h (i + 1) (by simpa using hi)]
    rfl

theorem removeFirst_of_prefix (pat b : List Char) : removeFirst (pat ++ b) pat = b := by
  have := removeFirst_append [] pat b (fun i hi => absurd hi (by simp))
  simpa using this

theorem jsToLower_append (a b : String) :
    (jsToLower (a ++ b)).data = (jsToLower a).data ++ (jsToLower b).data := by
  simp [jsToLower]

theorem isDuplicate_iff (prev : List Transaction) (n : Transaction) :
    isDuplicate prev n = true
      ↔ ∃ e ∈ prev, dayOf e.date = dayOf n.date ∧ |e.amount - n.amount| < 0.01
          ∧ normMerchant e.merchant = normMerchant n.merchant := by
  simp [isDuplicate, List.any_eq_true, and_assoc, mathAbs_eq_abs]

theorem isRecurring_iff (prev : List Transaction) (tx : Transaction) :
    isRecurring prev tx = true ↔ recurrenceEvidence prev tx := by
  unfold isRecurring recurrenceEvidence
  rw [List.any_eq_true]
  refine exists_congr fun e => and_congr_right fun _ => ?_
  by_cases he : e.type = TransactionType.income
  · simp [he]
  · simp [he, if_neg he, includes_iff, beq_iff_eq, abs_sub_comm, and_assoc, or_assoc,
      mathAbs_eq_abs]

theorem classifyTx_cases (H : List Transaction) (n : Transaction) :
    classifyTx H n = n ∨ classifyTx H n = { n with type := TransactionType.fixed_bill } := by
  unfold classifyTx
  split
  · exact Or.inl rfl
  split
  · exact Or.inr rfl
  split
  · exact Or.inl rfl
  · exact Or.inl rfl

theorem getMonth_isoDate (y m d : Nat) (h1 : 1 ≤ m) (h2 : m ≤ 12) :
    getMonth (isoDate y m d) = m - 1 := by
  interval_cases m <;> rfl

/-! ## Sample transactions used by the witnesses -/

/-- Sample history record: a January rent payment. -/
def exRent : Transaction :=
  { id := "1", date := "2024-01-05", merchant := "Acme Rent",
    amount := 1200, type := TransactionType.flexible_bill, category := "Housing" }

/-- Sample incoming record: a February rent payment, five dollars higher. -/
def exRentFeb : Transaction :=
  { id := "2", date := "2024-02-05", merchant := "Acme Rent",
    amount := 1205, type := TransactionType.spending, category := "Housing" }

/-- Sample incoming income record whose merchant and amount match `exRent`. -/
def exIncome : Transaction :=
  { id := "3", date := "2024-02-05", merchant := "Acme Rent",
    amount := 1200, type := TransactionType.income, category := "Income" }

/-- Sample incoming record duplicating `exRent` up to merchant case,
surrounding whitespace and time-of-day. -/
def exRentDup : Transaction :=
  { id := "4", date := "2024-01-05T08:30", merchant := "  ACME RENT ",
    amount := 1200, type := TransactionType.spending, category := "Housing" }

/-! ## Claim theorems -/

/-- C1: `dedupe H B` returns exactly those elements `n` of `B` for which no
`e` in `H` matches on all three of: calendar-day part of the date (time-of-day
ignored), amount within one cent, and merchant equality after lower-casing and
trimming; an element matching some `e` is removed and an element failing some
condition against every `e` is kept. -/
theorem C1_dedupe_exact (H B : List Transaction) :
    dedupe H B = B.filter fun n => decide (∀ e ∈ H,
      ¬(dayOf n.date = dayOf e.date ∧ |n.amount - e.amount| < 0.01
        ∧ normMerchant n.merchant = normMerchant e.merchant)) := by
  unfold dedupe
  refine List.filter_congr fun n _ => ?_
  rw [Bool.eq_iff_iff, Bool.not_eq_true', decide_eq_true_eq,
    Bool.eq_false_iff, ne_eq, isDuplicate_iff]
  simp only [not_exists, not_and]
  constructor
  · intro hfa e he h1 h2 h3
    exact hfa e he h1.symm (by rwa [abs_sub_comm]) h3.symm
  · intro hfa e he h1 h2 h3
    exact hfa e he h1.symm (by rwa [abs_sub_comm]) h3.symm

/-- C2: for a non-income incoming transaction `n`, the classifier returns `n`
upgraded to `fixed_bill` exactly when some existing non-income transaction
matches on normalized merchant name (equality or substring containment either
way), amount within ten dollars, and a different month index; with no such
match the record is returned exactly as provided (a type already `fixed_bill`
is never downgraded). -/
theorem C2_classify_upgrade_iff (H : List Transaction) (n : Transaction)
    (hn : n.type ≠ TransactionType.income) :
    (recurrenceEvidence H n →
        classifyTx H n = { n with type := TransactionType.fixed_bill })
    ∧ (¬ recurrenceEvidence H n → classifyTx H n = n) := by
  constructor
  · intro h
    simp only [classifyTx, if_neg hn, (isRecurring_iff H n).mpr h, if_pos]
  · intro h
    have hf : isRecurring H n = false :=
      Bool.eq_false_iff.mpr fun ht => h ((isRecurring_iff H n).mp ht)
    simp [classifyTx, if_neg hn, hf]

/-- C2 witness: the February rent against the January history upgrades to
`fixed_bill`; against an empty history it is returned unchanged. -/
theorem C2_witness :
    classifyTx [exRent] exRentFeb = { exRentFeb with type := TransactionType.fixed_bill }
    ∧ classifyTx [] exRentFeb = exRentFeb :=
  ⟨(C2_classify_upgrade_iff [exRent] exRentFeb (by decide)).1
      ⟨exRent, by simp, by decide, Or.inl (by decide),
        by norm_num [exRent, exRentFeb], by decide⟩,
   (C2_classify_upgrade_iff [] exRentFeb (by decide)).2 (by simp [recurrenceEvidence])⟩

/-- C3 counterexample: the source's `cleanName` removes a `"transfer to "`
marker from the middle of a merchant string, and removes two markers from a
string carrying both `"zelle to "` and `"transfer to "`, while the
normalization described by the claim (`specNormalize`: at most one marker,
stripped only as a leading prefix) does neither — so the claim is false on
these inputs. -/
theorem C3_counterexample :
    cleanName "paid Transfer to Bob" = "paid bob"
    ∧ specNormalize "paid Transfer to Bob" = "paid transfer to bob"
    ∧ cleanName "paid Transfer to Bob" ≠ specNormalize "paid Transfer to Bob"
    ∧ cleanName "zelle to transfer to Bob" = "bob"
    ∧ specNormalize "zelle to transfer to Bob" = "transfer to bob"
    ∧ cleanName "zelle to transfer to Bob" ≠ specNormalize "zelle to transfer to Bob" := by
  refine ⟨by decide, by decide, by decide, by decide, by decide, by decide⟩

/-- C3 amended: the normalization lower-cases the merchant string and then
removes the first occurrence — anywhere in the string, not only as a leading
prefix — of `"zelle to "`, then of `"zelle transfer to "`, then of
`"transfer to "`, in that order (so up to three removals, one per pattern),
and finally trims whitespace.  Part one: with no occurrence of any pattern the
string is only lower-cased and trimmed.  Part two: the first occurrence of
`"transfer to "` is removed even in the middle of the string.  Part three: a
string starting with both a `"zelle to "` and a `"transfer to "` marker has
both removed. -/
theorem C3_cleanName_first_occurrences :
    (∀ s : String,
      ¬ ("zelle to ").data <:+: (jsToLower s).data →
      ¬ ("zelle transfer to ").data <:+: (jsToLower s).data →
      ¬ ("transfer to ").data <:+: (jsToLower s).data →
      cleanName s = jsTrim (jsToLower s))
    ∧ (∀ a b : String,
      ¬ ("zelle to ").data <:+:
          ((jsToLower a).data ++ (("transfer to ").data ++ (jsToLower b).data)) →
      ¬ ("zelle transfer to ").data <:+:
          ((jsToLower a).data ++ (("transfer to ").data ++ (jsToLower b).data)) →
      (∀ i, i < (jsToLower a).data.length →
        ¬ ("transfer to ").data <+:
            (((jsToLower a).data ++ (("transfer to ").data ++ (jsToLower b).data)).drop i)) →
      cleanName (a ++ "transfer to " ++ b)
        = jsTrim ⟨(jsToLower a).data ++ (jsToLower b).data⟩)
    ∧ (∀ b : String,
      ¬ ("zelle transfer to ").data <:+: (("transfer to ").data ++ (jsToLower b).data) →
      cleanName ("zelle to transfer to " ++ b) = jsTrim (jsToLower b)) := by
  refine ⟨fun s h1 h2 h3 => ?_, fun a b h1 h2 h3 => ?_, fun b h2 => ?_⟩
  · show jsTrim ⟨removeFirst (removeFirst (removeFirst (jsToLower s).data
        ("zelle to ").data) ("zelle transfer to ").data) ("transfer to ").data⟩
      = jsTrim (jsToLower s)
    rw [removeFirst_of_no_occurrence _ _ h1, removeFirst_of_no_occurrence _ _ h2,
      removeFirst_of_no_occurrence _ _ h3]
  · have hdata : (jsToLower (a ++ "transfer to " ++ b)).data
        = (jsToLower a).data ++ (("transfer to ").data ++ (jsToLower b).data) := by
      rw [jsToLower_append, jsToLower_append, List.append_assoc]
      have hl : (jsToLower "transfer to ").data = ("transfer to ").data := by decide
      rw [hl]
    show jsTrim ⟨removeFirst (removeFirst (removeFirst
        (jsToLower (a ++ "transfer to " ++ b)).data
        ("zelle to ").data) ("zelle transfer to ").data) ("transfer to ").data⟩
      = jsTrim ⟨(jsToLower a).data ++ (jsToLower b).data⟩
    rw [hdata, removeFirst_of_no_occurrence _ _ h1, removeFirst_of_no_occurrence _ _ h2,
      removeFirst_append _ _ _ h3]
  · have hdata : (jsToLower ("zelle to transfer to " ++ b)).data
        = ("zelle to ").data ++ (("transfer to ").data ++ (jsToLower b).data) := by
      rw [jsToLower_append]
      have hl : (jsToLower "zelle to transfer to ").data
          = ("zelle to ").data ++ ("transfer to ").data := by decide
      rw [hl, List.append_assoc]
    show jsTrim ⟨removeFirst (removeFirst (removeFirst
        (jsToLower ("zelle to transfer to " ++ b)).data
        ("zelle to ").data) ("zelle transfer to ").data) ("transfer to ").data⟩
      = jsTrim (jsToLower b)
    rw [hdata, removeFirst_of_prefix, removeFirst_of_no_occurrence _ _ h2,
      removeFirst_of_prefix]

/-- C3 witness: the three parts of the amended statement at concrete inputs —
a plain merchant, a mid-string `"transfer to "` marker, and a double
`"zelle to " … "transfer to "` marker. -/
theorem C3_witness :
    cleanName "Acme" = jsTrim (jsToLower "Acme")
    ∧ cleanName ("paid " ++ "transfer to " ++ "Bob")
        = jsTrim ⟨(jsToLower "paid ").data ++ (jsToLower "Bob").data⟩
    ∧ cleanName ("zelle to transfer to " ++ "Jane") = jsTrim (jsToLower "Jane") :=
  ⟨C3_cleanName_first_occurrences.1 "Acme" (by decide) (by decide) (by decide),
   C3_cleanName_first_occurrences.2.1 "paid " "Bob" (by decide) (by decide) (by decide),
   C3_cleanName_first_occurrences.2.2 "Jane" (by decide)⟩

/-- C4: the cross-month recurrence condition compares the month-of-year index
only and ignores the year: for dates rendered from `(year, month, day)`
triples, the code's `getMonth`-inequality test succeeds exactly when the month
numbers differ, whatever the years are — two dates in the same calendar month
of different years fail it, two dates in different months (adjacent ones
included) of any years satisfy it. -/
theorem C4_month_ignores_year (y1 y2 m1 m2 d1 d2 : Nat)
    (h11 : 1 ≤ m1) (h12 : m1 ≤ 12) (h21 : 1 ≤ m2) (h22 : m2 ≤ 12) :
    ((getMonth (isoDate y1 m1 d1) != getMonth (isoDate y2 m2 d2)) = true ↔ m1 ≠ m2) := by
  rw [bne_iff_ne, getMonth_isoDate y1 m1 d1 h11 h12, getMonth_isoDate y2 m2 d2 h21 h22]
  omega

/-- C4 witness: January 2024 versus January 2025 does not count as a
different month, while December 2023 versus January 2025 does. -/
theorem C4_witness :
    ((getMonth (isoDate 2024 1 15) != getMonth (isoDate 2025 1 5)) = true ↔ (1 : Nat) ≠ 1)
    ∧ ((getMonth (isoDate 2023 12 31) != getMonth (isoDate 2025 1 1)) = true ↔ (12 : Nat) ≠ 1) :=
  ⟨C4_month_ignores_year 2024 2025 1 1 15 5 (by decide) (by decide) (by decide) (by decide),
   C4_month_ignores_year 2023 2025 12 1 31 1 (by decide) (by decide) (by decide) (by decide)⟩

/-- C5: an incoming income transaction is returned by the classifier
completely unchanged, whatever the history contains. -/
theorem C5_income_unchanged (H : List Transaction) (n : Transaction)
    (h : n.type = TransactionType.income) : classifyTx H n = n := by
  simp [classifyTx, h]

/-- C5 witness: an income record whose merchant, amount and month all match
the history is still returned unchanged. -/
theorem C5_witness : classifyTx [exRent] exIncome = exIncome :=
  C5_income_unchanged [exRent] exIncome rfl

/-- C6: every output record of the recurrence classifier agrees with its
input record on `id`, `date`, `merchant`, `amount` and `category` — only
`type` can change — and the classifier maps its per-record function over the
batch. -/
theorem C6_classify_frame (H : List Transaction) (n : Transaction) :
    (classifyTx H n).id = n.id ∧ (classifyTx H n).date = n.date
    ∧ (classifyTx H n).merchant = n.merchant ∧ (classifyTx H n).amount = n.amount
    ∧ (classifyTx H n).category = n.category
    ∧ ∀ B : List Transaction, classifyRecurring H B = B.map (classifyTx H) := by
  rcases classifyTx_cases H n with h | h <;> rw [h] <;>
    exact ⟨rfl, rfl, rfl, rfl, rfl, fun B => rfl⟩

/-- C7: `dedupe` is idempotent in its second argument. -/
theorem C7_dedupe_idempotent (H B : List Transaction) :
    dedupe H (dedupe H B) = dedupe H B := by
  unfold dedupe
  rw [List.filter_filter]
  exact List.filter_congr fun n _ => Bool.and_self _

/-- C8: `dedupe H B` is a subsequence of `B` (every kept element occurs in
`B`, in the order it had there, and nothing else appears), and an empty batch
yields an empty output. -/
theorem C8_dedupe_sublist (H B : List Transaction) :
    List.Sublist (dedupe H B) B ∧ dedupe H ([] : List Transaction) = [] :=
  ⟨List.filter_sublist B, rfl⟩

/-- C9: a single-record add stores the record verbatim at the head of the
history — field-for-field identical to the input — and bypasses the
dedupe/classification pipeline: even when the record duplicates an existing
transaction (a case the batch pipeline would drop), the single add keeps
it. -/
theorem C9_single_add_verbatim (t : Transaction) (prev : List Transaction) :
    addTransaction t prev = t :: prev
    ∧ (isDuplicate prev t = true → addTransactions prev [t] = prev) := by
  refine ⟨rfl, fun h => ?_⟩
  simp [addTransactions, dedupe, classifyRecurring, h]

/-- C9 witness: a record duplicating the January rent is prepended verbatim
by the single add, while the batch pipeline would have dropped it. -/
theorem C9_witness :
    addTransaction exRentDup [exRent] = exRentDup :: [exRent]
    ∧ addTransactions [exRent] [exRentDup] = [exRent] :=
  ⟨(C9_single_add_verbatim exRentDup [exRent]).1,
   (C9_single_add_verbatim exRentDup [exRent]).2 (by
     simp only [isDuplicate, exRent, exRentDup, List.any_cons, List.any_nil, Bool.or_false,
       Bool.and_eq_true, beq_iff_eq, decide_eq_true_eq]
     exact ⟨⟨by decide, by norm_num [mathAbs]⟩, by decide⟩)⟩

/-- C10: the merge pipeline handles each batch element against the
pre-existing history only: merging a concatenated batch equals concatenating
the independently deduped-and-classified halves (so no batch element serves
as dedupe or recurrence evidence for another), and two identical
non-duplicate records in one batch both survive dedupe. -/
theorem C10_batch_independent (H B1 B2 : List Transaction) :
    addTransactions H (B1 ++ B2)
      = classifyRecurring H (dedupe H B1) ++ (classifyRecurring H (dedupe H B2) ++ H)
    ∧ ∀ r : Transaction, isDuplicate H r = false → dedupe H [r, r] = [r, r] := by
  constructor
  · simp [addTransactions, dedupe, classifyRecurring, List.filter_append, List.map_append]
  · intro r h
    simp [dedupe, h]

/-- C10 witness: merging a two-element batch equals processing its halves
independently against the history, and a duplicated new record survives
dedupe twice. -/
theorem C10_witness :
    addTransactions [exRent] ([exRentFeb] ++ [exIncome])
      = classifyRecurring [exRent] (dedupe [exRent] [exRentFeb])
          ++ (classifyRecurring [exRent] (dedupe [exRent] [exIncome]) ++ [exRent])
    ∧ dedupe [exRent] [exRentFeb, exRentFeb] = [exRentFeb, exRentFeb] :=
  ⟨(C10_batch_independent [exRent] [exRentFeb] [exIncome]).1,
   (C10_batch_independent [exRent] [exRentFeb] [exIncome]).2 exRentFeb (by decide)⟩

end FinAdvisor
